import Mathlib

/-!
# Verification of the NBAScheduler cleaning and validation pipeline

Shallow embedding of the cleaning pipeline of `clean_events.py` /
`run_api.py` (date-window filter, keyword exclusion, deduplication,
venue-identity resolution) and of the cross-source matcher of
`validate.py`, together with theorems settling the spec claims.
-/

/-- Substring search on character lists: `charsLead needle hay` is true when
`needle` is an initial segment of `hay`. -/
def charsLead : List Char → List Char → Bool
  | [], _ => true
  | _ :: _, [] => false
  | a :: as, b :: bs => a == b && charsLead as bs

/-- `charsHas needle hay` is true when `needle` occurs contiguously inside
`hay` (Python `needle in hay` on strings). -/
def charsHas (needle : List Char) : List Char → Bool
  | [] => needle.isEmpty
  | c :: rest => charsLead needle (c :: rest) || charsHas needle rest

/-- Python's `needle in hay` substring test. -/
def strContains (hay needle : String) : Bool :=
  charsHas needle.toList hay.toList

/-- Python `str.lower()` (ASCII case mapping, which covers the data at
hand). -/
def strLower (s : String) : String :=
  ⟨s.toList.map Char.toLower⟩

/-- Python `str.strip()`: drop leading and trailing whitespace. -/
def trimChars (l : List Char) : List Char :=
  ((l.dropWhile Char.isWhitespace).reverse.dropWhile Char.isWhitespace).reverse

/-- Python character slicing `s[:n]`. -/
def strTake (s : String) (n : Nat) : String :=
  ⟨s.toList.take n⟩

/-- Lexicographic comparison of strings by code point, as `pandas` sorts
object columns. -/
def charsLE : List Char → List Char → Bool
  | [], _ => true
  | _ :: _, [] => false
  | a :: as, b :: bs => if a == b then charsLE as bs else decide (a < b)

/-- `str(venue).lower().strip()` as performed by `is_nba_arena` and by the
registry-name normalization `venues_df["Venue Name"].str.lower().str.strip()`
(`clean_events.py`). -/
def normVenue (s : String) : String :=
  ⟨trimChars (strLower s).toList⟩

/-- `normalize` of `validate.py`: lowercase and strip whitespace.  The source
additionally removes Unicode combining characters after NFKD decomposition;
on the ASCII data handled here that step is the identity, so the embedding
works with lowercasing and trimming. -/
def normName (s : String) : String :=
  ⟨trimChars (strLower s).toList⟩

/-- Calendar date. -/
structure Date where
  year : Nat
  month : Nat
  day : Nat
deriving DecidableEq

/-- Gregorian leap-year test. -/
def isLeap (y : Nat) : Bool :=
  (y % 4 == 0 && !(y % 100 == 0)) || y % 400 == 0

/-- Number of days of month `m` of year `y`. -/
def daysInMonth (y m : Nat) : Nat :=
  if m == 2 then (if isLeap y then 29 else 28)
  else if m == 4 || m == 6 || m == 9 || m == 11 then 30
  else 31

/-- A structurally valid calendar date. -/
def Date.valid (d : Date) : Bool :=
  decide (1 ≤ d.month) && decide (d.month ≤ 12) &&
  decide (1 ≤ d.day) && decide (d.day ≤ daysInMonth d.year d.month)

/-- Lexicographic `≤` on dates; agrees with timestamp order on valid dates
(`pandas` Timestamp comparison). -/
def dateLE (a b : Date) : Bool :=
  decide (a.year < b.year) ||
    (a.year == b.year &&
      (decide (a.month < b.month) ||
        (a.month == b.month && decide (a.day ≤ b.day))))

/-- Lexicographic `<` on dates. -/
def dateLT (a b : Date) : Bool :=
  decide (a.year < b.year) ||
    (a.year == b.year &&
      (decide (a.month < b.month) ||
        (a.month == b.month && decide (a.day < b.day))))

/-- The following calendar day (`sdate + timedelta(days=1)`). -/
def Date.next (d : Date) : Date :=
  if d.day < daysInMonth d.year d.month then ⟨d.year, d.month, d.day + 1⟩
  else if d.month < 12 then ⟨d.year, d.month + 1, 1⟩
  else ⟨d.year + 1, 1, 1⟩

/-- The preceding calendar day (`sdate + timedelta(days=-1)`). -/
def Date.prev (d : Date) : Date :=
  if 1 < d.day then ⟨d.year, d.month, d.day - 1⟩
  else if 1 < d.month then ⟨d.year, d.month - 1, daysInMonth d.year (d.month - 1)⟩
  else ⟨d.year - 1, 12, 31⟩

/-- Split a character run at every dash (`"-"`). -/
def splitDashAux : List Char → List Char → List (List Char)
  | [], acc => [acc.reverse]
  | c :: rest, acc =>
    if c == '-' then acc.reverse :: splitDashAux rest []
    else splitDashAux rest (c :: acc)

/-- Parse a non-empty, all-digit character run as a decimal number. -/
def digitsToNat (l : List Char) : Option Nat :=
  if !l.isEmpty && l.all Char.isDigit then
    some (l.foldl (fun n c => n * 10 + (c.toNat - 48)) 0)
  else none

/-- `pd.to_datetime(value, errors="coerce")` on the `YYYY-MM-DD` strings the
collector emits (`localDate` of the events API): a successfully parsed,
structurally valid date, or `none` (`NaT`) for anything unparseable. -/
def parseDate (s : String) : Option Date :=
  match splitDashAux s.toList [] with
  | [ys, ms, ds] =>
    match digitsToNat ys, digitsToNat ms, digitsToNat ds with
    | some y, some m, some dd =>
      if ys.length == 4 && ms.length == 2 && ds.length == 2 && Date.valid ⟨y, m, dd⟩ then
        some ⟨y, m, dd⟩
      else
        none
    | _, _, _ => none
  | _ => none

/-- A raw event record as loaded from a per-team cache file and annotated
with its team (`clean_events.py`, `main`). -/
structure RawEvent where
  name : String
  date : String
  time : String
  venue : String
  team : String
deriving DecidableEq

/-- A cleaned event record, after the `date` column has been parsed. -/
structure Event where
  name : String
  date : Date
  time : String
  venue : String
  team : String
deriving DecidableEq

/-- The configured date window (`--start-date` / `--end-date`). -/
structure Config where
  startDate : Date
  endDate : Date

/-- Parse a record's date and keep it only when it falls inside the window:
`df["date"] = pd.to_datetime(df["date"], errors="coerce")` followed by
`df = df[(df["date"] >= start_ts) & (df["date"] <= end_ts)]`.  `NaT` rows
fail both comparisons and are dropped. -/
def normRecord (cfg : Config) (r : RawEvent) : Option Event :=
  match parseDate r.date with
  | some d =>
    if dateLE cfg.startDate d && dateLE d cfg.endDate then
      some ⟨r.name, d, r.time, r.venue, r.team⟩
    else
      none
  | none => none

/-- The date-parsing and window-filter stage of `main`. -/
def dateFilter (cfg : Config) (raw : List RawEvent) : List Event :=
  raw.filterMap (normRecord cfg)

/-- The `exclude_kw` list of `clean_events.py` (identical in `run_api.py`). -/
def excludeKw : List String :=
  ["voucher", "suite pass", "post game", "item", "educator", "access only",
   "gift", "discount pass", "tour experience", " tour", "arena tour",
   "deposit", " offer", "testing", "halftime", "prospect deposit",
   "club deposit", "member offer", "member drop", "add on", "tshirt",
   "t-shirt", "dream team", "group deposit", "levy ticket", "season ticket"]

/-- The keyword-exclusion stage: drop a record when its lowercased name
contains any exclusion keyword as a substring. -/
def keywordFilter (l : List Event) : List Event :=
  l.filter (fun e => ! excludeKw.any (fun k => strContains (strLower e.name) k))

/-- The deduplication key `subset=["team", "date", "time", "venue"]`.  At
this point of the pipeline `date` is the parsed date; the other three
components are the raw field strings, compared exactly. -/
def eventKey (e : Event) : String × Date × String × String :=
  (e.team, e.date, e.time, e.venue)

/-- `drop_duplicates(subset=["team", "date", "time", "venue"])` with the
default keep-first policy, accumulating the keys already seen. -/
def dedupAux : List Event → List (String × Date × String × String) → List Event
  | [], _ => []
  | e :: rest, seen =>
    if eventKey e ∈ seen then dedupAux rest seen
    else e :: dedupAux rest (eventKey e :: seen)

/-- The deduplication stage. -/
def dropDuplicates (l : List Event) : List Event :=
  dedupAux l []

/-- The `sort_values(["date", "venue"])` order: by date, then by venue
string. -/
def sortLE (a b : Event) : Bool :=
  dateLT a.date b.date || (a.date == b.date && charsLE a.venue.toList b.venue.toList)

/-- `sortLE` as a decidable relation for sorting. -/
def sortRel (a b : Event) : Prop :=
  sortLE a b = true

instance : DecidableRel sortRel :=
  fun a b => inferInstanceAs (Decidable (sortLE a b = true))

/-- The `sort_values(["date", "venue"])` stage. -/
def sortStage (l : List Event) : List Event :=
  List.insertionSort sortRel l

/-- `is_nba_arena` of `clean_events.py` / `run_api.py`: the event's venue is
lowercased and stripped, and accepted when some registry arena name is a
substring of it or it is a substring of some registry arena name.  The
`nbaArenaNames` argument is the already lowercased and stripped list
`venues_df["Venue Name"].str.lower().str.strip().tolist()`. -/
def is_nba_arena (venue : String) (nbaArenaNames : List String) : Bool :=
  nbaArenaNames.any (fun arena =>
    strContains (normVenue venue) arena || strContains arena (normVenue venue))

/-- The venue-identity-resolution stage. -/
def venueFilter (nbaArenaNames : List String) (l : List Event) : List Event :=
  l.filter (fun e => is_nba_arena e.venue nbaArenaNames)

/-- The full filtering pipeline of `main` in `clean_events.py` (identical in
`clean_and_save` of `run_api.py`): window filter, keyword filter,
deduplication, sort, venue resolution. -/
def pipeline (cfg : Config) (nbaArenaNames : List String) (raw : List RawEvent) :
    List Event :=
  venueFilter nbaArenaNames (sortStage (dropDuplicates (keywordFilter (dateFilter cfg raw))))

/-- The save behaviour of `main`: when the raw concatenated cache is empty the
run reports and returns without writing (`if df.empty: ... return`), otherwise
the filtered dataset is written unconditionally (`df.to_csv(...)`).  `none`
models "no output file written"; `some rows` models the written dataset. -/
def runCleanEvents (cfg : Config) (nbaArenaNames : List String) (raw : List RawEvent) :
    Option (List Event) :=
  if raw.isEmpty then none else some (pipeline cfg nbaArenaNames raw)

/-- An event record as seen by `validate.py`: name, parsed calendar date, and
free-text venue (the columns it uses from either CSV, after the scraper
columns are renamed). -/
structure SrcEvent where
  name : String
  date : Date
  venue : String
deriving DecidableEq

/-- The designated scraper venues of `validate.py` (`scraper_venues`). -/
def scraperVenues : List String :=
  ["State Farm Arena", "TD Garden", "Barclays Center", "Spectrum Center"]

/-- `Series.str.contains(venue_name, case=False, na=False)`: case-insensitive
substring test (the venue names hold no regex metacharacters). -/
def containsCI (hay needle : String) : Bool :=
  strContains (strLower hay) (strLower needle)

/-- Lookup in the `api_by_date` dictionary: the normalized API names recorded
on day `d`, in insertion order; `[]` when the key is absent
(`api_by_date.get(check_date, [])`). -/
def apiNamesOn (api : List (Date × String)) (d : Date) : List String :=
  (api.filter (fun p => p.1 == d)).map (fun p => p.2)

/-- The three candidate days, in the loop order `for delta in [0, 1, -1]`. -/
def checkDates (d : Date) : List Date :=
  [d, d.next, d.prev]

/-- The per-candidate name comparison of `validate.py`:
`(short_s and short_a and short_s == short_a) or
 (len(sname) > 4 and sname[:8] in aname) or
 (len(aname) > 4 and aname[:8] in sname)`
where `short_s = sname[:6]`, `short_a = aname[:6]`.  Python truthiness of
`short_s` / `short_a` is emptiness of the 6-character slices. -/
def nameMatch (sname aname : String) : Bool :=
  (!(strTake sname 6 == "") && !(strTake aname 6 == "") && strTake sname 6 == strTake aname 6)
  || (decide (sname.length > 4) && strContains aname (strTake sname 8))
  || (decide (aname.length > 4) && strContains sname (strTake aname 8))

/-- Modelled from the spec's wording of the matching rule (section 4.4), for
comparison with `nameMatch`: first-6-characters equality carries no
non-emptiness guard there. -/
def specNameMatch (sname aname : String) : Bool :=
  (strTake sname 6 == strTake aname 6)
  || (decide (sname.length > 4) && strContains aname (strTake sname 8))
  || (decide (aname.length > 4) && strContains sname (strTake aname 8))

/-- The matching loop for one scraped event: a `found` flag that starts
`False`, scans the three candidate days in order, and once set is never
re-examined (the `break` statements). -/
def findLoop (api : List (Date × String)) (sdate : Date) (sname : String) : Bool :=
  (checkDates sdate).foldl
    (fun found d =>
      if found then found
      else (apiNamesOn api d).any (fun a => nameMatch sname a))
    false

/-- Construction of `api_by_date` from the venue's API events: each event
contributes its calendar date and normalized name, in row order. -/
def apiIndex (apiV : List SrcEvent) : List (Date × String) :=
  apiV.map (fun a => (a.date, normName a.name))

/-- One row of `detail_rows` / `validation_detail.csv`. -/
structure DetailRow where
  venue : String
  date : Date
  scraperName : String
  matchedInApi : Bool
deriving DecidableEq

/-- The per-venue body of the `for venue_name in scraper_venues` loop, as far
as `detail_rows` is concerned: filter both sides to the venue, skip the venue
entirely when it has no scraped events (`continue`), otherwise append exactly
one row per scraped event with the matcher's verdict. -/
def venueRows (api scraped : List SrcEvent) (v : String) : List DetailRow :=
  if (scraped.filter (fun e => containsCI e.venue v)).isEmpty then []
  else
    (scraped.filter (fun e => containsCI e.venue v)).map
      (fun s =>
        ⟨v, s.date, s.name,
          findLoop (apiIndex (api.filter (fun e => containsCI e.venue v))) s.date
            (normName s.name)⟩)

/-- All of `detail_rows` at the end of a run: the venue loop in order. -/
def detailRows (api scraped : List SrcEvent) : List DetailRow :=
  scraperVenues.flatMap (venueRows api scraped)

/-- The coverage line of `validate.py`:
`pct = len(matched) / len(scr_v) * 100 if scr_v.shape[0] > 0 else 0`. -/
def coveragePct (matchedN total : Nat) : ℚ :=
  if 0 < total then (matchedN : ℚ) / (total : ℚ) * 100 else 0

/-- The matcher verdict for one scraped event of venue `v`. -/
def scrapedFound (apiV : List SrcEvent) (s : SrcEvent) : Bool :=
  findLoop (apiIndex apiV) s.date (normName s.name)

/-- The coverage percentage reported for venue `v`: matched events over total
scraped events at that venue. -/
def venueCoverage (api scraped : List SrcEvent) (v : String) : ℚ :=
  let apiV := api.filter (fun e => containsCI e.venue v)
  let scrV := scraped.filter (fun e => containsCI e.venue v)
  coveragePct (scrV.countP (scrapedFound apiV)) scrV.length

/-! ## Helper lemmas -/

/-- The empty string occurs inside every string (Python `"" in s`). -/
lemma charsHas_nil (l : List Char) : charsHas [] l = true := by
  cases l <;> simp [charsHas, charsLead]

lemma strContains_empty (s : String) : strContains s "" = true := by
  unfold strContains
  have h : ("" : String).toList = [] := rfl
  rw [h]
  exact charsHas_nil _

/-- `coveragePct` is bounded by `[0, 100]` whenever the matched count does not
exceed the total. -/
lemma coveragePct_bounds (m t : Nat) (h : m ≤ t) :
    0 ≤ coveragePct m t ∧ coveragePct m t ≤ 100 := by
  unfold coveragePct
  split
  · rename_i ht
    have ht' : (0 : ℚ) < (t : ℚ) := by exact_mod_cast ht
    have h1 : (m : ℚ) / (t : ℚ) ≤ 1 := by
      rw [div_le_one ht']
      exact_mod_cast h
    constructor
    · positivity
    · calc (m : ℚ) / (t : ℚ) * 100 ≤ 1 * 100 :=
            mul_le_mul_of_nonneg_right h1 (by norm_num)
        _ = 100 := by norm_num
  · norm_num

/-! ## Claims -/

/-- C5.  An event venue is accepted by `is_nba_arena` (run against the
lowercased, stripped registry names) exactly when, after normalizing both
sides, the venue contains some canonical name or is contained in it; and the
Scenario 4 pair (venue "TD Garden Plaza", canonical "TD Garden") resolves. -/
theorem is_nba_arena_iff_containment :
    ∀ (venue : String) (canon : List String),
      (is_nba_arena venue (canon.map normVenue) = true ↔
        ∃ c ∈ canon, strContains (normVenue venue) (normVenue c) = true ∨
          strContains (normVenue c) (normVenue venue) = true)
      ∧ is_nba_arena "TD Garden Plaza" (List.map normVenue ["TD Garden"]) = true := by
  intro venue canon
  constructor
  · constructor
    · intro h
      rcases List.any_eq_true.mp h with ⟨a, ha, hpa⟩
      rcases List.mem_map.mp ha with ⟨c, hc, hca⟩
      subst hca
      exact ⟨c, hc, Bool.or_eq_true _ _ |>.mp hpa⟩
    · rintro ⟨c, hc, hor⟩
      refine List.any_eq_true.mpr ⟨normVenue c, List.mem_map_of_mem normVenue hc, ?_⟩
      exact Bool.or_eq_true _ _ |>.mpr hor
  · decide

/-- C9.  Every reported per-venue coverage percentage equals
matched / total × 100, lies inside `[0, 100]`, and the zero-total branch of
the guarded expression yields `0` rather than a division error. -/
theorem coverage_report_bounds :
    ∀ (api scraped : List SrcEvent) (v : String) (m : Nat),
      0 ≤ venueCoverage api scraped v ∧ venueCoverage api scraped v ≤ 100 ∧
        coveragePct m 0 = 0 := by
  intro api scraped v m
  have hb := coveragePct_bounds
    ((scraped.filter (fun e => containsCI e.venue v)).countP
      (scrapedFound (api.filter (fun e => containsCI e.venue v))))
    (scraped.filter (fun e => containsCI e.venue v)).length
    (List.countP_le_length _)
  refine ⟨?_, ?_, ?_⟩
  · simpa [venueCoverage] using hb.1
  · simpa [venueCoverage] using hb.2
  · simp [coveragePct]

/-- C10.  Against any non-empty registry, a venue string that normalizes to
the empty string (empty or whitespace-only) is always accepted, because the
empty string is a substring of every canonical name. -/
theorem empty_venue_accepted :
    ∀ (nbaArenaNames : List String) (venue : String),
      nbaArenaNames ≠ [] → normVenue venue = "" →
      is_nba_arena venue nbaArenaNames = true := by
  intro names venue hne hv
  cases names with
  | nil => exact absurd rfl hne
  | cons a t =>
    unfold is_nba_arena
    refine List.any_eq_true.mpr ⟨a, List.mem_cons_self a t, ?_⟩
    refine Bool.or_eq_true _ _ |>.mpr (Or.inr ?_)
    rw [hv]
    exact strContains_empty a

/-- Witness for C10 at a concrete input: a whitespace-only venue against a
one-entry registry. -/
theorem empty_venue_accepted_witness :
    is_nba_arena "   " ["td garden"] = true :=
  empty_venue_accepted ["td garden"] "   " (by decide) (by decide)

/-- A fold with a short-circuiting flag computes `any`. -/
lemma foldl_flag (p : Date → Bool) :
    ∀ (ds : List Date) (b : Bool),
      ds.foldl (fun found d => if found then found else p d) b = (b || ds.any p) := by
  intro ds
  induction ds with
  | nil => intro b; simp
  | cons d t ih =>
    intro b
    cases b <;> simp [List.foldl_cons, ih]

/-- The matching loop with its `break` statements declares a match exactly
when some candidate day holds some matching API name. -/
lemma findLoop_eq_any (api : List (Date × String)) (sdate : Date) (sname : String) :
    findLoop api sdate sname =
      (checkDates sdate).any (fun d => (apiNamesOn api d).any (fun a => nameMatch sname a)) := by
  unfold findLoop
  rw [foldl_flag]
  simp

/-- The per-candidate comparison, spelled out as a proposition. -/
lemma nameMatch_iff (sname aname : String) :
    nameMatch sname aname = true ↔
      ((strTake sname 6 ≠ "" ∧ strTake aname 6 ≠ "" ∧ strTake sname 6 = strTake aname 6)
        ∨ (sname.length > 4 ∧ strContains aname (strTake sname 8) = true)
        ∨ (aname.length > 4 ∧ strContains sname (strTake aname 8) = true)) := by
  simp only [nameMatch, Bool.or_eq_true, Bool.and_eq_true, Bool.not_eq_true',
    beq_eq_false_iff_ne, decide_eq_true_iff, beq_iff_eq, ne_eq, gt_iff_lt]
  tauto

/-- C4 (amended).  The matcher declares a scraped event matched exactly when
some candidate day (the event's date, the next day, the previous day, in that
order) holds an API name passing the three-way comparison, where the
first-6-characters branch additionally requires both 6-character slices to be
non-empty; and the Scenario 3 pair is matched. -/
theorem findLoop_iff_guarded :
    ∀ (api : List (Date × String)) (sdate : Date) (sname : String),
      (findLoop api sdate sname = true ↔
        ∃ d ∈ checkDates sdate, ∃ a ∈ apiNamesOn api d,
          ((strTake sname 6 ≠ "" ∧ strTake a 6 ≠ "" ∧ strTake sname 6 = strTake a 6)
            ∨ (sname.length > 4 ∧ strContains a (strTake sname 8) = true)
            ∨ (a.length > 4 ∧ strContains sname (strTake a 8) = true)))
      ∧ findLoop [(⟨2026, 4, 21⟩, "boston celtics vs new york knicks")] ⟨2026, 4, 20⟩
          (normName "Boston Celtics vs Knicks") = true := by
  intro api sdate sname
  constructor
  · rw [findLoop_eq_any]
    simp only [List.any_eq_true, nameMatch_iff]
  · decide

/-- C4 counterexample.  At empty normalized names the spec's unguarded rule
("first 6 characters equal") declares a match, while the code's comparison
(with its truthiness guards on the 6-character slices) does not: a scraped
event with empty normalized name against a same-day API event with empty
normalized name is reported unmatched. -/
theorem matcher_empty_names_diverge :
    specNameMatch "" "" = true ∧ nameMatch "" "" = false ∧
      findLoop [(⟨2026, 4, 20⟩, "")] ⟨2026, 4, 20⟩ "" = false := by
  decide

/-- A date produced by `parseDate` is structurally valid. -/
lemma parseDate_valid {s : String} {d : Date} (h : parseDate s = some d) :
    d.valid = true := by
  unfold parseDate at h
  split at h
  · split at h
    · split at h
      · rename_i hcond
        cases h
        simp only [Bool.and_eq_true] at hcond
        exact hcond.2
      · exact absurd h (by simp)
    · exact absurd h (by simp)
  · exact absurd h (by simp)

/-- A record surviving `normRecord` has its parsed date inside the window,
and that date is valid. -/
lemma normRecord_window {cfg : Config} {a : RawEvent} {e : Event}
    (h : normRecord cfg a = some e) :
    dateLE cfg.startDate e.date = true ∧ dateLE e.date cfg.endDate = true ∧
      e.date.valid = true := by
  unfold normRecord at h
  split at h
  · rename_i d hd
    split at h
    · rename_i hcond
      cases h
      simp only [Bool.and_eq_true] at hcond
      exact ⟨hcond.1, hcond.2, parseDate_valid hd⟩
    · exact absurd h (by simp)
  · exact absurd h (by simp)

/-- Deduplication only ever returns input records. -/
lemma mem_of_mem_dedupAux {x : Event} :
    ∀ {l : List Event} {seen : List (String × Date × String × String)},
      x ∈ dedupAux l seen → x ∈ l := by
  intro l
  induction l with
  | nil => intro seen h; simp [dedupAux] at h
  | cons e rest ih =>
    intro seen h
    unfold dedupAux at h
    split at h
    · exact List.mem_cons_of_mem _ (ih h)
    · rcases List.mem_cons.mp h with h1 | h2
      · subst h1; exact List.mem_cons_self _ _
      · exact List.mem_cons_of_mem _ (ih h2)

/-- Every record of the pipeline output already survived the keyword stage
(and hence the window stage). -/
lemma mem_keywordFilter_of_mem_pipeline {cfg : Config} {names : List String}
    {raw : List RawEvent} {r : Event} (h : r ∈ pipeline cfg names raw) :
    r ∈ keywordFilter (dateFilter cfg raw) := by
  unfold pipeline venueFilter at h
  have h1 := (List.mem_filter.mp h).1
  unfold sortStage at h1
  rw [List.mem_insertionSort] at h1
  exact mem_of_mem_dedupAux h1

/-- C6.  Window invariant: every record of the pipeline output carries a
date inside the configured inclusive window (unparseable dates never reach
the output, having been coerced to `NaT` and dropped). -/
theorem pipeline_window_invariant :
    ∀ (cfg : Config) (names : List String) (raw : List RawEvent) (r : Event),
      r ∈ pipeline cfg names raw →
      dateLE cfg.startDate r.date = true ∧ dateLE r.date cfg.endDate = true := by
  intro cfg names raw r h
  have hk := mem_keywordFilter_of_mem_pipeline h
  have hd : r ∈ dateFilter cfg raw := (List.mem_filter.mp hk).1
  rcases List.mem_filterMap.mp hd with ⟨a, _, ha⟩
  have hw := normRecord_window ha
  exact ⟨hw.1, hw.2.1⟩

/-- Witness for C6 at a concrete run. -/
theorem pipeline_window_invariant_witness :
    dateLE (Date.mk 2026 4 14) (Date.mk 2026 4 20) = true ∧
      dateLE (Date.mk 2026 4 20) (Date.mk 2026 6 19) = true :=
  pipeline_window_invariant ⟨⟨2026, 4, 14⟩, ⟨2026, 6, 19⟩⟩ ["td garden"]
    [⟨"Celtics vs Knicks", "2026-04-20", "19:00", "TD Garden", "Boston Celtics"⟩]
    ⟨"Celtics vs Knicks", ⟨2026, 4, 20⟩, "19:00", "TD Garden", "Boston Celtics"⟩
    (by decide)

/-- C2 (amended).  The date half of the data-model invariant holds: every
pipeline output record carries a valid calendar date.  (The name half fails,
see the counterexample: empty names are not filtered.) -/
theorem pipeline_dates_valid :
    ∀ (cfg : Config) (names : List String) (raw : List RawEvent) (r : Event),
      r ∈ pipeline cfg names raw → r.date.valid = true := by
  intro cfg names raw r h
  have hk := mem_keywordFilter_of_mem_pipeline h
  have hd : r ∈ dateFilter cfg raw := (List.mem_filter.mp hk).1
  rcases List.mem_filterMap.mp hd with ⟨a, _, ha⟩
  exact (normRecord_window ha).2.2

/-- Witness for C2's amended theorem at a concrete run. -/
theorem pipeline_dates_valid_witness :
    Date.valid ⟨2026, 4, 20⟩ = true :=
  pipeline_dates_valid ⟨⟨2026, 4, 14⟩, ⟨2026, 6, 19⟩⟩ ["td garden"]
    [⟨"Celtics vs Knicks", "2026-04-20", "19:00", "TD Garden", "Boston Celtics"⟩]
    ⟨"Celtics vs Knicks", ⟨2026, 4, 20⟩, "19:00", "TD Garden", "Boston Celtics"⟩
    (by decide)

/-- C2 counterexample.  A record whose `name` is the empty string passes
every stage (no keyword occurs inside an empty name, and the filters never
check name non-emptiness), so the canonical output can contain an
empty-named record: the invariant "`name` is non-empty" does not hold. -/
theorem pipeline_keeps_empty_name :
    pipeline ⟨⟨2026, 4, 14⟩, ⟨2026, 6, 19⟩⟩ ["td garden"]
        [⟨"", "2026-04-20", "19:00", "TD Garden", "Boston Celtics"⟩] =
      [⟨"", ⟨2026, 4, 20⟩, "19:00", "TD Garden", "Boston Celtics"⟩] ∧
      Event.name ⟨"", ⟨2026, 4, 20⟩, "19:00", "TD Garden", "Boston Celtics"⟩ = "" := by
  decide

/-- C7.  Exclusion invariant: no pipeline output record's lowercased name
contains any configured exclusion keyword as a substring; and the Scenario 1
input (one record named "NBA Playoffs Game 1 Season Ticket Holder Deposit"
inside the window) produces an empty output. -/
theorem pipeline_exclusion_invariant :
    ∀ (cfg : Config) (names : List String) (raw : List RawEvent) (r : Event),
      r ∈ pipeline cfg names raw →
      (∀ kw ∈ excludeKw, strContains (strLower r.name) kw = false) ∧
        pipeline ⟨⟨2026, 4, 14⟩, ⟨2026, 6, 19⟩⟩ ["td garden"]
          [⟨"NBA Playoffs Game 1 Season Ticket Holder Deposit", "2026-04-20", "19:00",
            "TD Garden", "Boston Celtics"⟩] = [] := by
  intro cfg names raw r h
  constructor
  · have hk := mem_keywordFilter_of_mem_pipeline h
    have hp := (List.mem_filter.mp hk).2
    simp only [Bool.not_eq_true'] at hp
    intro kw hkw
    exact Bool.eq_false_iff.mpr (List.any_eq_false.mp hp kw hkw)
  · decide

/-- Witness for C7 at a concrete run whose single record is kept. -/
theorem pipeline_exclusion_invariant_witness :
    (∀ kw ∈ excludeKw, strContains (strLower "Celtics vs Knicks") kw = false) ∧
      pipeline ⟨⟨2026, 4, 14⟩, ⟨2026, 6, 19⟩⟩ ["td garden"]
        [⟨"NBA Playoffs Game 1 Season Ticket Holder Deposit", "2026-04-20", "19:00",
          "TD Garden", "Boston Celtics"⟩] = [] :=
  pipeline_exclusion_invariant ⟨⟨2026, 4, 14⟩, ⟨2026, 6, 19⟩⟩ ["td garden"]
    [⟨"Celtics vs Knicks", "2026-04-20", "19:00", "TD Garden", "Boston Celtics"⟩]
    ⟨"Celtics vs Knicks", ⟨2026, 4, 20⟩, "19:00", "TD Garden", "Boston Celtics"⟩
    (by decide)

/-- C1 (amended).  The run writes no output file exactly when the raw
concatenated cache is empty, a check made before any filtering; a run whose
record set becomes empty only through filtering still writes an (empty)
output file.  Both cases terminate without a fatal error (the run function
is total). -/
theorem saveSkipped_iff_raw_empty :
    ∀ (cfg : Config) (names : List String) (raw : List RawEvent),
      runCleanEvents cfg names raw = none ↔ raw = [] := by
  intro cfg names raw
  unfold runCleanEvents
  split
  · rename_i h
    simp [List.isEmpty_iff.mp h]
  · rename_i h
    rw [List.isEmpty_iff] at h
    simp [h]

/-- C1 counterexample.  A one-record input whose record is filtered out
(its date lies outside the window) leaves zero records after filtering, yet
the run still writes an output file, namely an empty dataset: the
EmptyDataset condition of the spec does not suppress the write. -/
theorem emptyAfterFilter_still_saved :
    pipeline ⟨⟨2026, 4, 14⟩, ⟨2026, 6, 19⟩⟩ ["td garden"]
        [⟨"Celtics vs Knicks", "2020-01-01", "19:00", "TD Garden", "Boston Celtics"⟩] = [] ∧
      runCleanEvents ⟨⟨2026, 4, 14⟩, ⟨2026, 6, 19⟩⟩ ["td garden"]
        [⟨"Celtics vs Knicks", "2020-01-01", "19:00", "TD Garden", "Boston Celtics"⟩] =
        some [] := by
  decide

/-- C8.  The deduplication key is exact equality on the raw `team`, `time`,
`venue` strings (and the parsed date): two records equal in team, date and
time whose venue strings differ at all -- even only by casing or surrounding
whitespace -- have distinct keys, and both survive deduplication and the
subsequent sort. -/
theorem dedup_exact_key_keeps_both :
    ∀ (r1 r2 : Event),
      r1.team = r2.team → r1.date = r2.date → r1.time = r2.time →
      normVenue r1.venue = normVenue r2.venue → r1.venue ≠ r2.venue →
      r1 ∈ sortStage (dropDuplicates [r1, r2]) ∧
        r2 ∈ sortStage (dropDuplicates [r1, r2]) := by
  intro r1 r2 _ _ _ _ hv
  have hkey : eventKey r2 ≠ eventKey r1 := by
    intro h
    exact hv (congrArg (fun k => k.2.2.2) h).symm
  have hd : dropDuplicates [r1, r2] = [r1, r2] := by
    simp [dropDuplicates, dedupAux, hkey]
  rw [hd]
  unfold sortStage
  constructor <;> rw [List.mem_insertionSort] <;> simp

/-- Witness for C8: the Scenario 2 pair, venues "TD Garden" and
" td garden ". -/
theorem dedup_exact_key_keeps_both_witness :
    (⟨"Celtics vs Knicks", ⟨2026, 4, 20⟩, "19:00", "TD Garden", "Boston Celtics"⟩ : Event) ∈
        sortStage (dropDuplicates
          [⟨"Celtics vs Knicks", ⟨2026, 4, 20⟩, "19:00", "TD Garden", "Boston Celtics"⟩,
           ⟨"Celtics vs Knicks", ⟨2026, 4, 20⟩, "19:00", " td garden ", "Boston Celtics"⟩]) ∧
      (⟨"Celtics vs Knicks", ⟨2026, 4, 20⟩, "19:00", " td garden ", "Boston Celtics"⟩ : Event) ∈
        sortStage (dropDuplicates
          [⟨"Celtics vs Knicks", ⟨2026, 4, 20⟩, "19:00", "TD Garden", "Boston Celtics"⟩,
           ⟨"Celtics vs Knicks", ⟨2026, 4, 20⟩, "19:00", " td garden ", "Boston Celtics"⟩]) :=
  dedup_exact_key_keeps_both
    ⟨"Celtics vs Knicks", ⟨2026, 4, 20⟩, "19:00", "TD Garden", "Boston Celtics"⟩
    ⟨"Celtics vs Knicks", ⟨2026, 4, 20⟩, "19:00", " td garden ", "Boston Celtics"⟩
    rfl rfl rfl (by decide) (by decide)

/-- In a list of scraped events with pairwise-distinct names, counting the
events that share `e`'s name and satisfy `p` gives `1` or `0` according to
whether `e` itself satisfies `p`. -/
lemma countP_key_unique (p : SrcEvent → Bool) :
    ∀ (l : List SrcEvent) (e : SrcEvent), e ∈ l → (l.map SrcEvent.name).Nodup →
      l.countP (fun s => (s.name == e.name) && p s) = if p e then 1 else 0 := by
  intro l
  induction l with
  | nil => intro e he _; simp at he
  | cons a t ih =>
    intro e he hn
    rw [List.map_cons, List.nodup_cons] at hn
    rcases List.mem_cons.mp he with rfl | het
    · rw [List.countP_cons]
      have ht : t.countP (fun s => (s.name == e.name) && p s) = 0 := by
        rw [List.countP_eq_zero]
        intro s hs hcon
        have hname : s.name = e.name := beq_iff_eq.mp ((Bool.and_eq_true _ _).mp hcon).1
        exact hn.1 (hname ▸ List.mem_map_of_mem SrcEvent.name hs)
      rw [ht]
      simp
    · rw [List.countP_cons]
      have hne : a.name ≠ e.name := by
        intro hEq
        exact hn.1 (hEq ▸ List.mem_map_of_mem SrcEvent.name het)
      have ha : ((a.name == e.name) && p a) = false := by
        simp [hne]
      rw [ha, ih e het hn.2]
      simp

/-- Number of `detail_rows` entries a given scraped event contributes for one
designated venue: one when its venue field contains the venue name,
zero otherwise. -/
lemma venueRows_count (api scraped : List SrcEvent) (v : String) (e : SrcEvent)
    (he : e ∈ scraped) (hn : (scraped.map SrcEvent.name).Nodup) :
    (venueRows api scraped v).countP (fun r => r.scraperName == e.name) =
      if containsCI e.venue v then 1 else 0 := by
  unfold venueRows
  split
  · rename_i hEmpty
    cases hcv : containsCI e.venue v
    · simp
    · exfalso
      have hmem : e ∈ scraped.filter (fun x => containsCI x.venue v) :=
        List.mem_filter.mpr ⟨he, hcv⟩
      rw [List.isEmpty_iff] at hEmpty
      rw [hEmpty] at hmem
      exact absurd hmem (List.not_mem_nil e)
  · rw [List.countP_map]
    have hcomp :
        ((fun r : DetailRow => r.scraperName == e.name) ∘
          (fun s : SrcEvent =>
            (⟨v, s.date, s.name,
              findLoop (apiIndex (api.filter (fun x => containsCI x.venue v))) s.date
                (normName s.name)⟩ : DetailRow))) =
          fun s : SrcEvent => s.name == e.name := rfl
    rw [hcomp, List.countP_filter]
    exact countP_key_unique (fun s => containsCI s.venue v) scraped e he hn

/-- C3 (amended).  For scraped data whose event names are pairwise distinct,
the number of validation match records produced for a scraped event equals
the number of designated scraper venues whose name its venue field contains
(case-insensitively): one record per matching designated venue, and in
particular zero for an event at a venue outside the designated list. -/
theorem detailRows_count_per_event :
    ∀ (api scraped : List SrcEvent) (e : SrcEvent),
      e ∈ scraped → (scraped.map SrcEvent.name).Nodup →
      (detailRows api scraped).countP (fun r => r.scraperName == e.name) =
        scraperVenues.countP (fun v => containsCI e.venue v) := by
  intro api scraped e he hn
  have h1 := venueRows_count api scraped "State Farm Arena" e he hn
  have h2 := venueRows_count api scraped "TD Garden" e he hn
  have h3 := venueRows_count api scraped "Barclays Center" e he hn
  have h4 := venueRows_count api scraped "Spectrum Center" e he hn
  simp only [detailRows, scraperVenues, List.flatMap_cons, List.flatMap_nil,
    List.countP_append, List.append_nil, h1, h2, h3, h4,
    List.countP_cons, List.countP_nil]
  cases containsCI e.venue "State Farm Arena" <;>
    cases containsCI e.venue "TD Garden" <;>
      cases containsCI e.venue "Barclays Center" <;>
        cases containsCI e.venue "Spectrum Center" <;> simp

/-- Witness for C3's amended theorem: a TD Garden event contributes exactly
one detail row (one designated venue matches). -/
theorem detailRows_count_per_event_witness :
    (detailRows []
        [⟨"Celtics vs Knicks", ⟨2026, 4, 20⟩, "TD Garden"⟩]).countP
        (fun r => r.scraperName == "Celtics vs Knicks") =
      scraperVenues.countP
        (fun v => containsCI (SrcEvent.venue ⟨"Celtics vs Knicks", ⟨2026, 4, 20⟩, "TD Garden"⟩) v) :=
  detailRows_count_per_event []
    [⟨"Celtics vs Knicks", ⟨2026, 4, 20⟩, "TD Garden"⟩]
    ⟨"Celtics vs Knicks", ⟨2026, 4, 20⟩, "TD Garden"⟩
    (by decide) (by decide)

/-- C3 counterexample.  A scraped event whose venue matches none of the four
designated scraper venues produces zero match records, not one: the venue
loop never selects it. -/
theorem detailRows_zero_for_unlisted_venue :
    detailRows [] [⟨"Knicks vs Pacers", ⟨2026, 5, 1⟩, "Madison Square Garden"⟩] = [] := by
  decide
